import Mathlib

/-
Verification development for the vemabot blog scraper (src/vemabot.py).
The Python source is shallowly embedded: pure string and date processing
is translated directly; network access (requests.get via soup_from) is
modelled as an explicit response function passed to the embedded
functions; Python exceptions are modelled with Except (an uncaught
exception is Except.error, a caught one is handled in place).
-/

namespace Vemabot

/-- Base origin of the scraped site, source line 20 (the literal there is
missing its closing quote; the evident string is used). -/
def BASE_URL : String := "https://www.vema.sk"

/-- Listing path, source line 21. -/
def START_PATH : String := "/sk-sk/svet-vema"

/-- Decimal digit test; models the regex digit class on ASCII text. -/
def isDigitCh (c : Char) : Bool := 48 ≤ c.toNat && c.toNat ≤ 57

/-- Numeric value of a decimal digit character. -/
def digVal (c : Char) : Nat := c.toNat - 48

/-- Whitespace test; models the regex whitespace class. -/
def isSpaceCh (c : Char) : Bool :=
  c.toNat = 32 || c.toNat = 9 || c.toNat = 10 || c.toNat = 13 ||
  c.toNat = 11 || c.toNat = 12

/-- Letter class of the month-word regex DATE_WORD, source lines 28 to 30:
ASCII letters plus the Czech and Slovak accented letters listed there. -/
def isWordCh (c : Char) : Bool :=
  (65 ≤ c.toNat && c.toNat ≤ 90) || (97 ≤ c.toNat && c.toNat ≤ 122) ||
  "ÁÄČĎÉĚÍĹĽŇÓÔŘŠŤÚŮÝŽáäčďéěíĺľňóôřšťúůýž".toList.contains c

/-- Skip a run of whitespace; models a greedy whitespace-star step. -/
def skipWs : List Char → List Char
  | [] => []
  | c :: rest => if isSpaceCh c then skipWs rest else c :: rest

/-- Consume a literal dot. -/
def expectDot : List Char → Option (List Char)
  | '.' :: rest => some rest
  | _ => none

/-- Consume a literal dash. -/
def expectDash : List Char → Option (List Char)
  | '-' :: rest => some rest
  | _ => none

/-- Consume exactly two decimal digits. -/
def take2dig : List Char → Option (Nat × List Char)
  | a :: b :: rest =>
    if isDigitCh a && isDigitCh b then some (10 * digVal a + digVal b, rest) else none
  | _ => none

/-- Consume exactly one decimal digit. -/
def take1dig : List Char → Option (Nat × List Char)
  | a :: rest => if isDigitCh a then some (digVal a, rest) else none
  | _ => none

/-- Consume exactly four decimal digits; models the year group of both
date regexes, source lines 25 and 29. -/
def take4digits : List Char → Option (Nat × List Char)
  | a :: b :: c :: d :: rest =>
    if isDigitCh a && isDigitCh b && isDigitCh c && isDigitCh d then
      some (1000 * digVal a + 100 * digVal b + 10 * digVal c + digVal d, rest)
    else none
  | _ => none

/-- Match the year suffix of DATE_NUM after the month: a dot, optional
whitespace, four digits. -/
def yearTail (day month : Nat) (cs : List Char) : Option (Nat × Nat × Nat) :=
  match expectDot cs with
  | none => none
  | some cs1 =>
    match take4digits (skipWs cs1) with
    | none => none
    | some (yy, _) => some (day, month, yy)

/-- Match the month-and-year suffix of DATE_NUM after the day: a dot,
whitespace, one or two digits (greedy, with backtracking), then the year. -/
def monthTail (day : Nat) (cs : List Char) : Option (Nat × Nat × Nat) :=
  match expectDot cs with
  | none => none
  | some cs1 =>
    let cs2 := skipWs cs1
    match take2dig cs2 with
    | some (m2, rest) =>
      match yearTail day m2 rest with
      | some r => some r
      | none =>
        match take1dig cs2 with
        | some (m1, rest1) => yearTail day m1 rest1
        | none => none
    | none =>
      match take1dig cs2 with
      | some (m1, rest1) => yearTail day m1 rest1
      | none => none

/-- Match the whole DATE_NUM pattern at the head of the text, the day
group taken greedily with backtracking. -/
def matchNumAt (cs : List Char) : Option (Nat × Nat × Nat) :=
  match take2dig cs with
  | some (d2, rest) =>
    match monthTail d2 rest with
    | some r => some r
    | none =>
      match take1dig cs with
      | some (d1, rest1) => monthTail d1 rest1
      | none => none
  | none =>
    match take1dig cs with
    | some (d1, rest1) => monthTail d1 rest1
    | none => none

/-- Leftmost search for DATE_NUM, source line 25: models
DATE_NUM.search, trying each start position left to right. -/
def searchNum : List Char → Option (Nat × Nat × Nat)
  | [] => none
  | c :: rest =>
    match matchNumAt (c :: rest) with
    | some r => some r
    | none => searchNum rest

/-- Match the word-and-year suffix of DATE_WORD after the day and dot:
optional whitespace, one or more word letters (greedy; the letter class
is disjoint from digits and whitespace, so no backtracking can occur),
optional whitespace, four digits. -/
def wordTail (day : Nat) (cs : List Char) : Option (Nat × List Char × Nat) :=
  match expectDot cs with
  | none => none
  | some cs1 =>
    let cs2 := skipWs cs1
    let w := cs2.takeWhile isWordCh
    if w = [] then none
    else
      match take4digits (skipWs (cs2.dropWhile isWordCh)) with
      | none => none
      | some (yy, _) => some (day, w, yy)

/-- Match the whole DATE_WORD pattern at the head of the text. -/
def matchWordAt (cs : List Char) : Option (Nat × List Char × Nat) :=
  match take2dig cs with
  | some (d2, rest) =>
    match wordTail d2 rest with
    | some r => some r
    | none =>
      match take1dig cs with
      | some (d1, rest1) => wordTail d1 rest1
      | none => none
  | none =>
    match take1dig cs with
    | some (d1, rest1) => wordTail d1 rest1
    | none => none

/-- Leftmost search for DATE_WORD, source lines 28 to 30. -/
def searchWord : List Char → Option (Nat × List Char × Nat)
  | [] => none
  | c :: rest =>
    match matchWordAt (c :: rest) with
    | some r => some r
    | none => searchWord rest

/-- Month-stem table, source lines 33 to 46, in source order.  The Python
dict literal repeats the key "maj"; a duplicate key with the same value
is kept here, which leaves the lookup unchanged. -/
def MONTH_STEM : List (String × Nat) :=
  [("led", 1), ("uno", 2), ("úno", 2),
   ("bre", 3), ("bře", 3), ("mar", 3),
   ("dub", 4), ("apr", 4),
   ("kve", 5), ("máj", 5), ("maj", 5), ("maj", 5),
   ("cer", 6), ("čer", 6),
   ("cvc", 7), ("cve", 7), ("čec", 7), ("črv", 7), ("jul", 7), ("júl", 7),
   ("srp", 8), ("aug", 8),
   ("zar", 9), ("zář", 9), ("sep", 9),
   ("rij", 10), ("říj", 10), ("okt", 10),
   ("lis", 11), ("nov", 11),
   ("pro", 12), ("dec", 12)]

/-- Lowercasing as Python str.lower acts on the characters admitted by
the DATE_WORD letter class: ASCII letters and the listed accented
letters. -/
def pyLower (c : Char) : Char :=
  if 65 ≤ c.toNat && c.toNat ≤ 90 then Char.ofNat (c.toNat + 32)
  else match c with
  | 'Á' => 'á' | 'Ä' => 'ä' | 'Č' => 'č' | 'Ď' => 'ď' | 'É' => 'é' | 'Ě' => 'ě'
  | 'Í' => 'í' | 'Ĺ' => 'ĺ' | 'Ľ' => 'ľ' | 'Ň' => 'ň' | 'Ó' => 'ó' | 'Ô' => 'ô'
  | 'Ř' => 'ř' | 'Š' => 'š' | 'Ť' => 'ť' | 'Ú' => 'ú' | 'Ů' => 'ů' | 'Ý' => 'ý'
  | 'Ž' => 'ž' | _ => c

/-- Diacritic folding, source lines 63 to 68.  The source applies a chain
of single-character replace calls whose outputs are plain ASCII and are
never replaced again, so the chain equals this character-wise map. -/
def foldChar (c : Char) : Char :=
  match c with
  | 'á' => 'a' | 'ä' => 'a' | 'č' => 'c' | 'ď' => 'd' | 'é' => 'e' | 'ě' => 'e'
  | 'í' => 'i' | 'ľ' => 'l' | 'ĺ' => 'l' | 'ň' => 'n' | 'ó' => 'o' | 'ô' => 'o'
  | 'ř' => 'r' | 'š' => 's' | 'ť' => 't' | 'ú' => 'u' | 'ů' => 'u' | 'ý' => 'y'
  | 'ž' => 'z' | _ => c

/-- Month-word resolution, source lines 59 to 71: lowercase, fold
diacritics, take the first three characters, look up in MONTH_STEM with
default 0. -/
def month_from_word (word : String) : Nat :=
  let tx := word.toList.map (fun c => foldChar (pyLower c))
  let stem := String.mk (tx.take 3)
  (MONTH_STEM.lookup stem).getD 0

/-- Calendar datetime at midnight, the only shape this program builds;
models datetime.datetime values constructed at source line 122. -/
structure DateTime where
  y : Nat
  m : Nat
  d : Nat
deriving DecidableEq, Repr

/-- Lexicographic order on dates; models datetime comparison. -/
def dtLt (a b : DateTime) : Bool :=
  a.y < b.y || (a.y = b.y && (a.m < b.m || (a.m = b.m && a.d < b.d)))

/-- Minimum of two dates as Python min computes it over a fold. -/
def dtMin (a b : DateTime) : DateTime := if dtLt b a then b else a

/-- Cutoff constant, source line 48: datetime(2024, 1, 1). -/
def CUTOFF : DateTime := ⟨2024, 1, 1⟩

/-- Leap-year rule of the proleptic Gregorian calendar used by
datetime. -/
def isLeap (y : Nat) : Bool := y % 4 = 0 && (y % 100 ≠ 0 || y % 400 = 0)

/-- Days in a month as datetime validates them. -/
def daysInMonth (y m : Nat) : Nat :=
  match m with
  | 1 => 31 | 2 => if isLeap y then 29 else 28 | 3 => 31 | 4 => 30
  | 5 => 31 | 6 => 30 | 7 => 31 | 8 => 31 | 9 => 30 | 10 => 31
  | 11 => 30 | 12 => 31 | _ => 0

/-- Constructor validation of datetime(year, month, day): year in 1..9999,
month in 1..12, day in range for the month; an out-of-range value makes
the Python constructor raise ValueError, modelled as none. -/
def mkDatetime (y m d : Nat) : Option DateTime :=
  if 1 ≤ y ∧ y ≤ 9999 ∧ 1 ≤ m ∧ m ≤ 12 ∧ 1 ≤ d ∧ d ≤ daysInMonth y m then
    some ⟨y, m, d⟩
  else none

/-- Digit character of a value below ten. -/
def digitChar : Nat → Char
  | 0 => '0' | 1 => '1' | 2 => '2' | 3 => '3' | 4 => '4'
  | 5 => '5' | 6 => '6' | 7 => '7' | 8 => '8' | _ => '9'

/-- Four-digit zero-padded year field of isoformat. -/
def pad4 (n : Nat) : List Char :=
  [digitChar (n / 1000), digitChar (n / 100 % 10), digitChar (n / 10 % 10),
   digitChar (n % 10)]

/-- Two-digit zero-padded month and day fields of isoformat. -/
def pad2 (n : Nat) : List Char := [digitChar (n / 10), digitChar (n % 10)]

/-- Midnight time suffix that datetime.isoformat emits for the dates this
program constructs. -/
def midnightSuffix : List Char := "T00:00:00".toList

/-- Serialization datetime.isoformat, source line 136: for the midnight
datetimes this program builds it is YYYY-MM-DDT00:00:00. -/
def isoformat (t : DateTime) : String :=
  String.mk (pad4 t.y ++ '-' :: (pad2 t.m ++ '-' :: (pad2 t.d ++ midnightSuffix)))

/-- Parsing datetime.fromisoformat, source line 160, restricted to the
strings this program constructs: a calendar date, optionally followed by
the midnight time suffix, with the ranges validated as fromisoformat
does. -/
def fromIso (s : String) : Option DateTime :=
  match take4digits s.toList with
  | none => none
  | some (y, cs1) =>
    match expectDash cs1 with
    | none => none
    | some cs2 =>
      match take2dig cs2 with
      | none => none
      | some (m, cs3) =>
        match expectDash cs3 with
        | none => none
        | some cs4 =>
          match take2dig cs4 with
          | none => none
          | some (d, rest) =>
            if rest = [] ∨ rest = midnightSuffix then mkDatetime y m d else none

/-- Headline anchor of a tile as parse_tile inspects it, source lines 95
to 100: the href attribute (absent or a string) and the stripped text. -/
structure LinkTag where
  href : Option String
  text : String
deriving DecidableEq, Repr

/-- Element carrying the background image, source lines 127 to 130: its
optional style attribute. -/
structure MediaDiv where
  style : Option String
deriving DecidableEq, Repr

/-- One article-preview fragment as parse_tile addresses it: the optional
headline anchor, the optional stripped text of the second info list item
(source line 102), and the optional media element. -/
structure Tile where
  linkTag : Option LinkTag
  dateLi : Option String
  media : Option MediaDiv
deriving DecidableEq, Repr

/-- Meta tag with its optional content attribute, source lines 82 to 87. -/
structure MetaTag where
  content : Option String
deriving DecidableEq, Repr

/-- Article page as summary_from_page inspects it: the stripped texts of
the selected paragraphs in document order, and the optional description
meta tags. -/
structure ArticlePage where
  paragraphs : List String
  ogDesc : Option MetaTag
  nameDesc : Option MetaTag
deriving DecidableEq, Repr

/-- Network response function for article pages: none models a request
that raises (caught inside summary_from_page). -/
abbrev Net := String → Option ArticlePage

/-- Scraped record, source lines 132 to 138: the dict the scraper builds,
every field a string; a structure field being always present models the
dict key being always present. -/
structure Record where
  title : String
  url : String
  image : String
  date : String
  summary : String
deriving DecidableEq, Repr

/-- Decidable equality on Except results, used to evaluate the embedded
functions on concrete inputs. -/
instance {ε α : Type} [DecidableEq ε] [DecidableEq α] : DecidableEq (Except ε α) := fun a b =>
  match a, b with
  | .error e1, .error e2 =>
    if h : e1 = e2 then .isTrue (by rw [h]) else .isFalse (by intro hc; cases hc; exact h rfl)
  | .ok v1, .ok v2 =>
    if h : v1 = v2 then .isTrue (by rw [h]) else .isFalse (by intro hc; cases hc; exact h rfl)
  | .error _, .ok _ => .isFalse (by intro hc; cases hc)
  | .ok _, .error _ => .isFalse (by intro hc; cases hc)

/-- Python str.strip on the whitespace class. -/
def pyStrip (s : String) : String :=
  String.mk (((s.toList.dropWhile isSpaceCh).reverse.dropWhile isSpaceCh).reverse)

/-- Test for Python str.startswith "http", source line 99. -/
def startsHttp (s : String) : Bool :=
  match s.toList with
  | 'h' :: 't' :: 't' :: 'p' :: _ => true
  | _ => false

/-- Relative link resolution, source line 99. -/
def resolveUrl (href : String) : String :=
  if startsHttp href then href else BASE_URL ++ href

/-- Summary Resolver, source lines 74 to 90: first non-empty paragraph,
else the description meta content stripped, else empty; the try block
turns any fetch failure into the empty default. -/
def summary_from_page (net : Net) (url : String) : String :=
  match net url with
  | none => ""
  | some page =>
    match page.paragraphs.find? (fun t => t ≠ "") with
    | some txt => txt
    | none =>
      match page.ogDesc, page.nameDesc with
      | some meta, _ =>
        match meta.content with
        | none => ""
        | some c => if c = "" then "" else pyStrip c
      | none, some meta =>
        match meta.content with
        | none => ""
        | some c => if c = "" then "" else pyStrip c
      | none, none => ""

/-- Date-text cascade of parse_tile, source lines 107 to 120: the numeric
regex first, then the word regex combined with month_from_word, whose
result 0 signals an unknown stem. -/
def dateFrom (txt : String) : Option (Nat × Nat × Nat) :=
  match searchNum txt.toList with
  | some (d, m, yy) => some (d, m, yy)
  | none =>
    match searchWord txt.toList with
    | none => none
    | some (d, w, yy) =>
      let m := month_from_word (String.mk w)
      if m = 0 then none else some (d, m, yy)

/-- Match of the CSS url token regex at the head of the text: the literal
characters u r l ( , then one or more characters other than the closing
parenthesis, then the closing parenthesis. -/
def cssUrlAt (cs : List Char) : Option (List Char) :=
  match cs with
  | 'u' :: 'r' :: 'l' :: '(' :: rest =>
    let tok := rest.takeWhile (fun c => c ≠ ')')
    if tok = [] then none
    else
      match rest.dropWhile (fun c => c ≠ ')') with
      | ')' :: _ => some tok
      | _ => none
  | _ => none

/-- Leftmost search for the CSS url token, source line 129. -/
def searchCssUrl : List Char → Option (List Char)
  | [] => none
  | c :: rest =>
    match cssUrlAt (c :: rest) with
    | some r => some r
    | none => searchCssUrl rest

/-- Image extraction of parse_tile, source lines 126 to 130: empty unless
the media element exists, carries a style attribute, and that attribute
contains a url token; the token is prefixed with the base origin. -/
def tileImage (tile : Tile) : String :=
  match tile.media with
  | none => ""
  | some bg =>
    match bg.style with
    | none => ""
    | some sty =>
      match searchCssUrl sty.toList with
      | none => ""
      | some tok => BASE_URL ++ String.mk tok

/-- Tile Extractor parse_tile, source lines 94 to 138.  Except.error
models the uncaught ValueError of the datetime constructor at source
line 122; Except.ok none models the silent per-tile skip. -/
def parse_tile (net : Net) (tile : Tile) : Except Unit (Option Record) :=
  match tile.linkTag with
  | none => .ok none
  | some link =>
    match link.href with
    | none => .ok none
    | some href =>
      if href = "" then .ok none
      else
        match tile.dateLi with
        | none => .ok none
        | some dateTxt =>
          match dateFrom dateTxt with
          | none => .ok none
          | some (d, m, yy) =>
            match mkDatetime yy m d with
            | none => .error ()
            | some pub =>
              if dtLt pub CUTOFF then .ok none
              else .ok (some
                { title := link.text
                  url := resolveUrl href
                  image := tileImage tile
                  date := isoformat pub
                  summary := summary_from_page net (resolveUrl href) })

/-- List-comprehension body of scrape_page, source line 143: tiles are
parsed left to right, records are kept, none results are dropped, and a
raised exception aborts the whole comprehension. -/
def parseTiles (net : Net) : List Tile → Except Unit (List Record)
  | [] => .ok []
  | t :: ts =>
    match parse_tile net t with
    | .error e => .error e
    | .ok a =>
      match parseTiles net ts with
      | .error e => .error e
      | .ok rest =>
        .ok (match a with | some r => r :: rest | none => rest)

/-- Network response function for listing pages: given the full page URL
it yields the tiles selected by TILE_SEL, or an error when the fetch
raises. -/
abbrev TileSource := String → Except Unit (List Tile)

/-- Pagination Walker scrape_page, source lines 141 to 143: fetch the
listing page at the base origin plus the path and parse its tiles. -/
def scrape_page (net : Net) (ft : TileSource) (path : String) : Except Unit (List Record) :=
  match ft (BASE_URL ++ path) with
  | .error e => .error e
  | .ok tiles => parseTiles net tiles

/-- Page addressing, source line 149: the bare path for page 1, a page
query parameter past it. -/
def pathFor (page : Nat) : String :=
  if page = 1 then START_PATH else START_PATH ++ "?News_page=" ++ toString page

/-- Dates of the records of one page through fromIso, evaluated left to
right; a record whose date field does not parse makes the Python min
expression raise, modelled as none. -/
def datesOf : List Record → Option (List DateTime)
  | [] => some []
  | r :: rs =>
    match fromIso r.date, datesOf rs with
    | some d, some ds => some (d :: ds)
    | _, _ => none

/-- Minimum date of one page of records, source line 160; none models a
raised exception (unparseable date field, or min over an empty page,
which the source guards against). -/
def minFromIsoDates (items : List Record) : Option DateTime :=
  match datesOf items with
  | none => none
  | some [] => none
  | some (d :: ds) => some (ds.foldl dtMin d)

/-- Loop body of scrape_all, source lines 146 to 167, with explicit fuel:
none means the fuel ran out with the loop still running, some carries the
outcome (the returned list, or a propagated exception).  The page loop
appends the whole page before testing the minimum date, exactly as the
source does. -/
def scrapeAllLoop (net : Net) (ft : TileSource) : Nat → Nat → List Record → Option (Except Unit (List Record))
  | 0, _, _ => none
  | fuel + 1, page, out =>
    match scrape_page net ft (pathFor page) with
    | .error e => some (.error e)
    | .ok items =>
      if items.isEmpty then some (.ok out)
      else
        let out2 := out ++ items
        match minFromIsoDates items with
        | none => some (.error ())
        | some mn =>
          if dtLt mn CUTOFF then some (.ok out2)
          else scrapeAllLoop net ft fuel (page + 1) out2

/-- Pagination Walker scrape_all, source lines 146 to 167, started at
page 1 with an empty accumulator. -/
def scrape_all (net : Net) (ft : TileSource) (fuel : Nat) : Option (Except Unit (List Record)) :=
  scrapeAllLoop net ft fuel 1 []

/-- Network response with every article-page fetch failing; the scraper
then produces empty summaries. -/
def netNone : Net := fun _ => none

/-- Network response serving one fixed article page with a first
paragraph. -/
def netHello : Net := fun _ => some { paragraphs := ["Hello"], ogDesc := none, nameDesc := none }

/-- Scenario tile dated 2025-05-01. -/
def tileA : Tile :=
  { linkTag := some { href := some "/a", text := "A" }
    dateLi := some "1. 5. 2025"
    media := none }

/-- Scenario tile dated 2025-04-15. -/
def tileB : Tile :=
  { linkTag := some { href := some "/b", text := "B" }
    dateLi := some "15. 4. 2025"
    media := none }

/-- Scenario tile dated 2023-12-20, before the cutoff. -/
def tileC : Tile :=
  { linkTag := some { href := some "/c", text := "C" }
    dateLi := some "20. 12. 2023"
    media := none }

/-- Tile on the page after the scenario page, dated 2024-01-02. -/
def tileP2 : Tile :=
  { linkTag := some { href := some "/p2", text := "P2" }
    dateLi := some "2. 1. 2024"
    media := none }

/-- Tile whose date text carries the invalid calendar date April 31. -/
def tileBadDate : Tile :=
  { linkTag := some { href := some "/bad", text := "Bad" }
    dateLi := some "31. 4. 2024"
    media := none }

/-- Tile with a headline link whose stripped text is empty. -/
def tileEmptyTitle : Tile :=
  { linkTag := some { href := some "/e", text := "" }
    dateLi := some "3. 2. 2024"
    media := none }

/-- Record that parse_tile builds from tileA under netNone. -/
def recA : Record :=
  { title := "A", url := "https://www.vema.sk/a", image := ""
    date := "2025-05-01T00:00:00", summary := "" }

/-- Record that parse_tile builds from tileB under netNone. -/
def recB : Record :=
  { title := "B", url := "https://www.vema.sk/b", image := ""
    date := "2025-04-15T00:00:00", summary := "" }

/-- Record that parse_tile builds from tileP2 under netNone. -/
def recP2 : Record :=
  { title := "P2", url := "https://www.vema.sk/p2", image := ""
    date := "2024-01-02T00:00:00", summary := "" }

/-- Listing source of the C1 scenario: page 1 carries the three scenario
tiles, page 2 one further post-cutoff tile, later pages nothing. -/
def ftScenario : TileSource := fun url =>
  if url = BASE_URL ++ pathFor 1 then .ok [tileA, tileB, tileC]
  else if url = BASE_URL ++ pathFor 2 then .ok [tileP2]
  else .ok []

/-- Listing source whose every page carries one surviving tile. -/
def ftEndless : TileSource := fun _ => .ok [tileA]

/-- Listing source with a nonempty page 1 and an empty page 2. -/
def ftTwoPages : TileSource := fun url =>
  if url = BASE_URL ++ pathFor 1 then .ok [tileA] else .ok []

/-- Record that parse_tile builds from tileEmptyTitle under netNone. -/
def recEmptyTitle : Record :=
  { title := "", url := "https://www.vema.sk/e", image := ""
    date := "2024-02-03T00:00:00", summary := "" }

/-- Record that parse_tile builds from tileA under netHello. -/
def recAHello : Record :=
  { title := "A", url := "https://www.vema.sk/a", image := ""
    date := "2025-05-01T00:00:00", summary := "Hello" }

/-- Network response serving a page whose paragraphs are all empty and
which has no description meta tags. -/
def netEmptyPage : Net :=
  fun _ => some { paragraphs := ["", ""], ogDesc := none, nameDesc := none }

/-- Tile carrying a background-image style attribute. -/
def tileImg : Tile :=
  { linkTag := some { href := some "/i", text := "I" }
    dateLi := some "5. 6. 2024"
    media := some { style := some "background-image: url(/media/pic.jpg);" } }

/-- Record that parse_tile builds from tileImg under netNone. -/
def recImg : Record :=
  { title := "I", url := "https://www.vema.sk/i"
    image := "https://www.vema.sk/media/pic.jpg"
    date := "2024-06-05T00:00:00", summary := "" }


theorem parse_tile_some_elim (net : Net) (tile : Tile) (r : Record)
    (h : parse_tile net tile = .ok (some r)) :
    ∃ link href dateTxt d m yy pub,
      tile.linkTag = some link ∧ link.href = some href ∧ href ≠ "" ∧
      tile.dateLi = some dateTxt ∧ dateFrom dateTxt = some (d, m, yy) ∧
      mkDatetime yy m d = some pub ∧ dtLt pub CUTOFF = false ∧
      r = { title := link.text, url := resolveUrl href, image := tileImage tile,
            date := isoformat pub, summary := summary_from_page net (resolveUrl href) } := by
  unfold parse_tile at h
  split at h
  · simp at h
  next link hl =>
    split at h
    · simp at h
    next href hh =>
      split at h
      · simp at h
      next hne =>
        split at h
        · simp at h
        next dateTxt hd =>
          split at h
          · simp at h
          next d m yy hdf =>
            split at h
            · simp at h
            next pub hmk =>
              split at h
              · simp at h
              next hlt =>
                simp only [Except.ok.injEq, Option.some.injEq] at h
                exact ⟨link, href, dateTxt, d, m, yy, pub, hl, hh, hne, hd, hdf, hmk,
                  by simpa using hlt, h.symm⟩

theorem parse_tile_some_intro (net : Net) (tile : Tile) (link : LinkTag) (href : String)
    (dateTxt : String) (d m yy : Nat) (pub : DateTime)
    (hl : tile.linkTag = some link) (hh : link.href = some href) (hne : href ≠ "")
    (hd : tile.dateLi = some dateTxt) (hdf : dateFrom dateTxt = some (d, m, yy))
    (hmk : mkDatetime yy m d = some pub) (hlt : dtLt pub CUTOFF = false) :
    parse_tile net tile = .ok (some
      { title := link.text, url := resolveUrl href, image := tileImage tile,
        date := isoformat pub, summary := summary_from_page net (resolveUrl href) }) := by
  unfold parse_tile
  simp [hl, hh, hd, hne, hdf, hmk, hlt]

theorem digitChar_val (n : Nat) (h : n < 10) :
    isDigitCh (digitChar n) = true ∧ digVal (digitChar n) = n := by
  interval_cases n <;> exact ⟨by decide, by decide⟩

theorem take4_pad4 (y : Nat) (hy : y < 10000) (rest : List Char) :
    take4digits (pad4 y ++ rest) = some (y, rest) := by
  obtain ⟨ha1, ha2⟩ := digitChar_val (y / 1000) (by omega)
  obtain ⟨hb1, hb2⟩ := digitChar_val (y / 100 % 10) (Nat.mod_lt _ (by norm_num))
  obtain ⟨hc1, hc2⟩ := digitChar_val (y / 10 % 10) (Nat.mod_lt _ (by norm_num))
  obtain ⟨hd1, hd2⟩ := digitChar_val (y % 10) (Nat.mod_lt _ (by norm_num))
  simp only [pad4, List.cons_append, List.nil_append, take4digits, ha1, hb1, hc1, hd1,
    Bool.and_self, if_true, ha2, hb2, hc2, hd2, Option.some.injEq, Prod.mk.injEq, and_true]
  omega

theorem take2_pad2 (m : Nat) (hm : m < 100) (rest : List Char) :
    take2dig (pad2 m ++ rest) = some (m, rest) := by
  obtain ⟨ha1, ha2⟩ := digitChar_val (m / 10) (by omega)
  obtain ⟨hb1, hb2⟩ := digitChar_val (m % 10) (Nat.mod_lt _ (by norm_num))
  simp only [pad2, List.cons_append, List.nil_append, take2dig, ha1, hb1,
    Bool.and_self, if_true, ha2, hb2, Option.some.injEq, Prod.mk.injEq, and_true]
  omega

theorem daysInMonth_le (y m : Nat) : daysInMonth y m ≤ 31 := by
  unfold daysInMonth
  split <;> first | (split <;> omega) | omega

theorem fromIso_isoformat (y m d : Nat) (t : DateTime) (h : mkDatetime y m d = some t) :
    fromIso (isoformat t) = some t := by
  have hb : 1 ≤ y ∧ y ≤ 9999 ∧ 1 ≤ m ∧ m ≤ 12 ∧ 1 ≤ d ∧ d ≤ daysInMonth y m := by
    by_contra hc
    unfold mkDatetime at h
    rw [if_neg hc] at h
    cases h
  have ht : t = ⟨y, m, d⟩ := by
    unfold mkDatetime at h
    rw [if_pos hb] at h
    injection h with h
    exact h.symm
  subst ht
  have hdm : d ≤ 31 := le_trans hb.2.2.2.2.2 (daysInMonth_le y m)
  have e1 : (isoformat ⟨y, m, d⟩).toList
      = pad4 y ++ '-' :: (pad2 m ++ '-' :: (pad2 d ++ midnightSuffix)) := rfl
  unfold fromIso
  rw [e1, take4_pad4 y (by omega)]
  simp only [expectDash, take2_pad2 m (by omega), take2_pad2 d (by omega)]
  simp only [midnightSuffix, reduceCtorEq, or_true, if_true]
  exact h

theorem record_date_ok (net : Net) (tile : Tile) (r : Record)
    (h : parse_tile net tile = .ok (some r)) :
    ∃ dt, fromIso r.date = some dt ∧ dtLt dt CUTOFF = false := by
  obtain ⟨link, href, dateTxt, d, m, yy, pub, _, _, _, _, _, hmk, hlt, hr⟩ :=
    parse_tile_some_elim net tile r h
  refine ⟨pub, ?_, hlt⟩
  rw [hr]
  exact fromIso_isoformat yy m d pub hmk

theorem parseTiles_mem (net : Net) (tiles : List Tile) (items : List Record)
    (h : parseTiles net tiles = .ok items) :
    ∀ r ∈ items, ∃ t ∈ tiles, parse_tile net t = .ok (some r) := by
  induction tiles generalizing items with
  | nil =>
    intro r hr
    unfold parseTiles at h
    injection h with h
    subst h
    simp at hr
  | cons t ts ih =>
    intro r hr
    unfold parseTiles at h
    cases hpt : parse_tile net t <;> rw [hpt] at h
    · simp at h
    case ok a =>
      cases hpts : parseTiles net ts <;> rw [hpts] at h
      · simp at h
      case ok rest =>
        injection h with h
        cases a with
        | none =>
          subst h
          obtain ⟨t0, ht0, hp0⟩ := ih rest hpts r hr
          exact ⟨t0, List.mem_cons_of_mem _ ht0, hp0⟩
        | some r0 =>
          subst h
          rcases List.mem_cons.mp hr with h1 | h2
          · subst h1
            exact ⟨t, List.mem_cons_self _ _, hpt⟩
          · obtain ⟨t0, ht0, hp0⟩ := ih rest hpts r h2
            exact ⟨t0, List.mem_cons_of_mem _ ht0, hp0⟩

theorem parseTiles_error_of_mem (net : Net) (pre post : List Tile) (tile : Tile)
    (hko : ∀ t ∈ pre, parse_tile net t ≠ .error ())
    (he : parse_tile net tile = .error ()) :
    parseTiles net (pre ++ tile :: post) = .error () := by
  induction pre with
  | nil =>
    simp only [List.nil_append]
    unfold parseTiles
    rw [he]
  | cons t ts ih =>
    simp only [List.cons_append]
    unfold parseTiles
    cases hpt : parse_tile net t with
    | error e =>
      cases e
      exact absurd hpt (hko t (List.mem_cons_self _ _))
    | ok a =>
      rw [ih (fun t0 ht0 => hko t0 (List.mem_cons_of_mem _ ht0))]

theorem scrape_page_records (net : Net) (ft : TileSource) (path : String)
    (items : List Record) (h : scrape_page net ft path = .ok items) :
    ∀ r ∈ items, ∃ t, parse_tile net t = .ok (some r) := by
  unfold scrape_page at h
  cases hft : ft (BASE_URL ++ path) <;> rw [hft] at h
  · simp at h
  case ok tiles =>
    intro r hr
    obtain ⟨t, _, hp⟩ := parseTiles_mem net tiles items h r hr
    exact ⟨t, hp⟩

theorem foldl_dtMin_lt_false (ds : List DateTime) (a : DateTime)
    (ha : dtLt a CUTOFF = false) (hds : ∀ x ∈ ds, dtLt x CUTOFF = false) :
    dtLt (ds.foldl dtMin a) CUTOFF = false := by
  induction ds generalizing a with
  | nil => exact ha
  | cons x xs ih =>
    apply ih
    · unfold dtMin
      split
      · exact hds x (List.mem_cons_self _ _)
      · exact ha
    · intro z hz
      exact hds z (List.mem_cons_of_mem _ hz)

theorem datesOf_all (items : List Record)
    (hall : ∀ r ∈ items, ∃ dt, fromIso r.date = some dt ∧ dtLt dt CUTOFF = false) :
    ∃ ds, datesOf items = some ds ∧ ds.length = items.length ∧
      ∀ x ∈ ds, dtLt x CUTOFF = false := by
  induction items with
  | nil => exact ⟨[], rfl, rfl, by simp⟩
  | cons r rs ih =>
    obtain ⟨dt, hdt, hlt⟩ := hall r (List.mem_cons_self _ _)
    obtain ⟨ds, hds, hlen, hall2⟩ := ih (fun x hx => hall x (List.mem_cons_of_mem _ hx))
    refine ⟨dt :: ds, ?_, by simp [hlen], ?_⟩
    · unfold datesOf
      rw [hdt, hds]
    · intro x hx
      rcases List.mem_cons.mp hx with h | h
      · subst h; exact hlt
      · exact hall2 x h

theorem minFromIso_ok (items : List Record) (hne : items ≠ [])
    (hall : ∀ r ∈ items, ∃ dt, fromIso r.date = some dt ∧ dtLt dt CUTOFF = false) :
    ∃ mn, minFromIsoDates items = some mn ∧ dtLt mn CUTOFF = false := by
  obtain ⟨ds, hds, hlen, hall2⟩ := datesOf_all items hall
  cases ds with
  | nil =>
    cases items with
    | nil => exact absurd rfl hne
    | cons a l => simp at hlen
  | cons d0 drest =>
    refine ⟨drest.foldl dtMin d0, ?_, ?_⟩
    · unfold minFromIsoDates
      rw [hds]
    · exact foldl_dtMin_lt_false drest d0 (hall2 d0 (List.mem_cons_self _ _))
        (fun x hx => hall2 x (List.mem_cons_of_mem _ hx))

theorem scrapeAllLoop_none (net : Net) (ft : TileSource)
    (H : ∀ p, 1 ≤ p → ∃ items, scrape_page net ft (pathFor p) = .ok items ∧ items ≠ []) :
    ∀ fuel page out, 1 ≤ page → scrapeAllLoop net ft fuel page out = none := by
  intro fuel
  induction fuel with
  | zero => intro page out _; rfl
  | succ n ih =>
    intro page out hp
    obtain ⟨items, hok, hne⟩ := H page hp
    have hall : ∀ r ∈ items, ∃ dt, fromIso r.date = some dt ∧ dtLt dt CUTOFF = false := by
      intro r hr
      obtain ⟨t, hpt⟩ := scrape_page_records net ft _ items hok r hr
      exact record_date_ok net t r hpt
    obtain ⟨mn, hmn, hge⟩ := minFromIso_ok items hne hall
    have hie : items.isEmpty = false := by
      cases items with
      | nil => exact absurd rfl hne
      | cons a l => rfl
    unfold scrapeAllLoop
    rw [hok]
    simp only [hie, Bool.false_eq_true, if_false, hmn, hge]
    exact ih (page + 1) (out ++ items) (by omega)

theorem scrapeAllLoop_term (net : Net) (ft : TileSource) (k : Nat)
    (H1 : ∀ p, 1 ≤ p → p < k → ∃ items, scrape_page net ft (pathFor p) = .ok items ∧ items ≠ [])
    (H2 : scrape_page net ft (pathFor k) = .ok []) :
    ∀ n page out, 1 ≤ page → page + n = k →
      ∃ res, scrapeAllLoop net ft (n + 1) page out = some (.ok res) := by
  intro n
  induction n with
  | zero =>
    intro page out hp hpk
    have hpage : page = k := by omega
    subst hpage
    refine ⟨out, ?_⟩
    unfold scrapeAllLoop
    rw [H2]
    rfl
  | succ m ih =>
    intro page out hp hpk
    have hlt : page < k := by omega
    obtain ⟨items, hok, hne⟩ := H1 page hp hlt
    have hall : ∀ r ∈ items, ∃ dt, fromIso r.date = some dt ∧ dtLt dt CUTOFF = false := by
      intro r hr
      obtain ⟨t, hpt⟩ := scrape_page_records net ft _ items hok r hr
      exact record_date_ok net t r hpt
    obtain ⟨mn, hmn, hge⟩ := minFromIso_ok items hne hall
    have hie : items.isEmpty = false := by
      cases items with
      | nil => exact absurd rfl hne
      | cons a l => rfl
    unfold scrapeAllLoop
    rw [hok]
    simp only [hie, Bool.false_eq_true, if_false, hmn, hge]
    exact ih (page + 1) (out ++ items) (by omega) (by omega)

theorem base_append_startsHttp (s : String) : startsHttp (BASE_URL ++ s) = true := by
  obtain ⟨l⟩ := s
  rfl

theorem base_append_ne_empty (s : String) : BASE_URL ++ s ≠ "" := by
  obtain ⟨l⟩ := s
  intro h
  have hd : (BASE_URL ++ String.mk l).data = ("" : String).data := by rw [h]
  simp [String.data] at hd
  exact absurd hd.1 (by decide)


/-- Claim C1: the claimed halting rule fails on the code.  On the scenario
page with tiles dated 2025-05-01, 2025-04-15 and 2023-12-20 under cutoff
2024-01-01, parse_tile already drops the pre-cutoff tile, so the minimum
date the walker sees on the page is 2025-04-15 and the cutoff break never
fires: the walker fetches page 2, keeps its record (three records in
total, not two), and is still running after two page fetches. -/
theorem c1_walker_overruns_scenario :
    scrape_all netNone ftScenario 3 = some (.ok [recA, recB, recP2]) ∧
    scrape_all netNone ftScenario 2 = none := by
  exact ⟨by decide, by decide⟩

/-- Claim C2: the month-word table fails on the claimed examples.  The
Czech July genitive resolves to 6 because its folded three-character stem
collides with the June stem, and the Slovak June nominative and genitive
resolve to 0 because the stem jun is absent from the table; the Slovak
July genitive, for contrast, resolves correctly. -/
theorem c2_month_table_bug :
    month_from_word "července" = 6 ∧ month_from_word "jún" = 0 ∧
    month_from_word "júna" = 0 ∧ month_from_word "června" = 6 ∧
    month_from_word "júla" = 7 := by
  exact ⟨by decide, by decide, by decide, by decide, by decide⟩

/-- Claim C3 counterexample: a tile whose date text carries the invalid
calendar date April 31 makes parse_tile raise (Except.error), and the
error aborts the whole page comprehension instead of skipping the single
tile. -/
theorem c3_invalid_date_aborts_page :
    parse_tile netNone tileBadDate = .error () ∧
    parseTiles netNone [tileBadDate, tileA] = .error () := by
  exact ⟨by decide, by decide⟩

/-- Claim C3 amended: for a tile whose date text parses to invalid
calendar values the datetime constructor raises; the exception is not
caught, so the tile is not merely skipped — the surrounding page
comprehension aborts with the error (and with it the run). -/
theorem c3_amended_invalid_date_fatal (net : Net) (tile : Tile) (link : LinkTag)
    (href dateTxt : String) (d m yy : Nat)
    (hl : tile.linkTag = some link) (hh : link.href = some href) (hne : href ≠ "")
    (hd : tile.dateLi = some dateTxt) (hdf : dateFrom dateTxt = some (d, m, yy))
    (hmk : mkDatetime yy m d = none) :
    parse_tile net tile = .error () ∧
    ∀ pre post, (∀ t ∈ pre, parse_tile net t ≠ .error ()) →
      parseTiles net (pre ++ tile :: post) = .error () := by
  have h1 : parse_tile net tile = .error () := by
    unfold parse_tile
    simp [hl, hh, hd, hne, hdf, hmk]
  exact ⟨h1, fun pre post hko => parseTiles_error_of_mem net pre post tile hko h1⟩

/-- Claim C3 witness: the amended statement applied to the April 31 tile
inside a page that also holds a good tile. -/
theorem c3_amended_witness :
    parse_tile netNone tileBadDate = .error () ∧
    parseTiles netNone ([tileA] ++ tileBadDate :: []) = .error () := by
  obtain ⟨h1, h2⟩ := c3_amended_invalid_date_fatal netNone tileBadDate
    { href := some "/bad", text := "Bad" } "/bad" "31. 4. 2024" 31 4 2024
    rfl rfl (by decide) rfl (by decide) (by decide)
  exact ⟨h1, h2 [tileA] [] (by decide)⟩

/-- Claim C4 counterexample: the record built from a tile dated 1. 5. 2025
serializes the date through datetime.isoformat, which yields the datetime
string 2025-05-01T00:00:00 and not the bare ISO calendar date
2025-05-01. -/
theorem c4_date_has_time_component :
    parse_tile netNone tileA = .ok (some recA) ∧
    recA.date = "2025-05-01T00:00:00" ∧ recA.date ≠ "2025-05-01" := by
  exact ⟨by decide, by decide, by decide⟩

/-- Claim C4 amended: every produced record carries in its date field the
isoformat of a midnight datetime — a 19-character ISO datetime string
whose suffix from position 10 on is the zero time component, not a bare
ISO calendar date string; the underlying value is a calendar date (the
time part is always exactly midnight) and parses back to the publication
date. -/
theorem c4_amended_date_serialization (net : Net) (tile : Tile) (r : Record)
    (h : parse_tile net tile = .ok (some r)) :
    ∃ pub, fromIso r.date = some pub ∧ r.date = isoformat pub ∧
      r.date.toList.length = 19 ∧ r.date.toList.drop 10 = midnightSuffix := by
  obtain ⟨link, href, dateTxt, d, m, yy, pub, _, _, _, _, _, hmk, _, hr⟩ :=
    parse_tile_some_elim net tile r h
  subst hr
  exact ⟨pub, fromIso_isoformat yy m d pub hmk, rfl, rfl, rfl⟩

/-- Claim C4 witness: the amended statement evaluated on the record of
the tile dated 1. 5. 2025. -/
theorem c4_amended_witness :
    ∃ pub, fromIso recA.date = some pub ∧ recA.date = isoformat pub ∧
      recA.date.toList.length = 19 ∧ recA.date.toList.drop 10 = midnightSuffix :=
  c4_amended_date_serialization netNone tileA recA (by decide)

/-- Claim C5 counterexample: a tile whose headline link has a non-empty
target but empty text still produces a record, with an empty title. -/
theorem c5_empty_title_record :
    parse_tile netNone tileEmptyTitle = .ok (some recEmptyTitle) ∧
    recEmptyTitle.title = "" := by
  exact ⟨by decide, by decide⟩

/-- Claim C5 amended: a record requires the headline link to exist with a
non-empty target — a tile missing the link, with the target attribute
absent, or with an empty target never produces a record — but non-empty
headline text is not required: the record title is whatever the link text
is, possibly empty. -/
theorem c5_amended_link_required :
    (∀ (net : Net) (tile : Tile), tile.linkTag = none →
      parse_tile net tile = .ok none) ∧
    (∀ (net : Net) (tile : Tile) (link : LinkTag), tile.linkTag = some link →
      link.href = none → parse_tile net tile = .ok none) ∧
    (∀ (net : Net) (tile : Tile) (link : LinkTag), tile.linkTag = some link →
      link.href = some "" → parse_tile net tile = .ok none) ∧
    (∀ (net : Net) (tile : Tile) (r : Record), parse_tile net tile = .ok (some r) →
      ∃ link href, tile.linkTag = some link ∧ link.href = some href ∧ href ≠ "" ∧
        r.title = link.text) := by
  refine ⟨?_, ?_, ?_, ?_⟩
  · intro net tile h
    unfold parse_tile
    rw [h]
  · intro net tile link h1 h2
    unfold parse_tile
    simp [h1, h2]
  · intro net tile link h1 h2
    unfold parse_tile
    simp [h1, h2]
  · intro net tile r h
    obtain ⟨link, href, dateTxt, d, m, yy, pub, hl, hh, hne, _, _, _, _, hr⟩ :=
      parse_tile_some_elim net tile r h
    exact ⟨link, href, hl, hh, hne, by rw [hr]⟩

/-- Claim C5 witness: the amended statement applied to a tile with no
link and to a tile with an empty link target. -/
theorem c5_amended_witness :
    parse_tile netNone { linkTag := none, dateLi := none, media := none } = .ok none ∧
    parse_tile netNone
      { linkTag := some { href := some "", text := "X" }
        dateLi := some "1. 5. 2025", media := none } = .ok none :=
  ⟨c5_amended_link_required.1 netNone { linkTag := none, dateLi := none, media := none } rfl,
   c5_amended_link_required.2.2.1 netNone
     { linkTag := some { href := some "", text := "X" }
       dateLi := some "1. 5. 2025", media := none }
     { href := some "", text := "X" } rfl rfl⟩

/-- Claim C6 counterexample: parse_tile performs a summary fetch, so its
result depends on the network: the same tile parsed under two different
network responses yields records with different summary fields. -/
theorem c6_network_dependence :
    parse_tile netNone tileA = .ok (some recA) ∧
    parse_tile netHello tileA = .ok (some recAHello) ∧
    recA.summary ≠ recAHello.summary := by
  exact ⟨by decide, by decide, by decide⟩

/-- Claim C6 amended: parse_tile is deterministic only once the network
responses are fixed; it fetches the article page for the summary, so of
two records parsed from the same tile under different networks only the
summary field may differ — title, url, image and date are functions of
the tile alone. -/
theorem c6_amended_pure_up_to_summary (n1 n2 : Net) (tile : Tile) (r1 r2 : Record)
    (h1 : parse_tile n1 tile = .ok (some r1)) (h2 : parse_tile n2 tile = .ok (some r2)) :
    r1.title = r2.title ∧ r1.url = r2.url ∧ r1.image = r2.image ∧ r1.date = r2.date := by
  obtain ⟨l1, hr1f, dt1, d1, m1, y1, p1, hl1, hh1, _, hd1, hdf1, hmk1, _, hr1⟩ :=
    parse_tile_some_elim n1 tile r1 h1
  obtain ⟨l2, hr2f, dt2, d2, m2, y2, p2, hl2, hh2, _, hd2, hdf2, hmk2, _, hr2⟩ :=
    parse_tile_some_elim n2 tile r2 h2
  rw [hl1] at hl2
  injection hl2 with e1
  subst e1
  rw [hh1] at hh2
  injection hh2 with e2
  subst e2
  rw [hd1] at hd2
  injection hd2 with e3
  subst e3
  rw [hdf1] at hdf2
  injection hdf2 with e4
  obtain ⟨e4a, e4b, e4c⟩ : d1 = d2 ∧ m1 = m2 ∧ y1 = y2 := by
    simpa [Prod.ext_iff] using e4
  subst e4a
  subst e4b
  subst e4c
  rw [hmk1] at hmk2
  injection hmk2 with e5
  subst e5
  rw [hr1, hr2]
  exact ⟨rfl, rfl, rfl, rfl⟩

/-- Claim C6 witness: the amended statement evaluated on the scenario
tile under the two concrete networks of the counterexample. -/
theorem c6_amended_witness :
    recA.title = recAHello.title ∧ recA.url = recAHello.url ∧
    recA.image = recAHello.image ∧ recA.date = recAHello.date :=
  c6_amended_pure_up_to_summary netNone netHello tileA recA recAHello
    (by decide) (by decide)

/-- Claim C7: records before the cutoff are never retained — every record
of a scraped page carries a date on or after the cutoff — and for a tile
that otherwise parses (link present with non-empty target, date text
resolving to a valid calendar date) a record is produced exactly when the
resolved date is not before the cutoff. -/
theorem c7_cutoff_iff :
    (∀ (net : Net) (ft : TileSource) (path : String) (items : List Record) (r : Record),
      scrape_page net ft path = .ok items → r ∈ items →
        ∃ dt, fromIso r.date = some dt ∧ dtLt dt CUTOFF = false) ∧
    (∀ (net : Net) (tile : Tile) (link : LinkTag) (href dateTxt : String)
      (d m yy : Nat) (pub : DateTime),
      tile.linkTag = some link → link.href = some href → href ≠ "" →
      tile.dateLi = some dateTxt → dateFrom dateTxt = some (d, m, yy) →
      mkDatetime yy m d = some pub →
      ((∃ r, parse_tile net tile = .ok (some r)) ↔ dtLt pub CUTOFF = false)) := by
  constructor
  · intro net ft path items r hok hr
    obtain ⟨t, hpt⟩ := scrape_page_records net ft path items hok r hr
    exact record_date_ok net t r hpt
  · intro net tile link href dateTxt d m yy pub hl hh hne hd hdf hmk
    constructor
    · rintro ⟨r, hr⟩
      obtain ⟨l2, h2r, dt2, d2, m2, y2, p2, hl2, hh2, _, hd2, hdf2, hmk2, hlt2, _⟩ :=
        parse_tile_some_elim net tile r hr
      rw [hd] at hd2
      injection hd2 with e1
      subst e1
      rw [hdf] at hdf2
      injection hdf2 with e2
      obtain ⟨ea, eb, ec⟩ : d = d2 ∧ m = m2 ∧ yy = y2 := by
        simpa [Prod.ext_iff] using e2
      subst ea
      subst eb
      subst ec
      rw [hmk] at hmk2
      injection hmk2 with e3
      subst e3
      exact hlt2
    · intro hlt
      exact ⟨_, parse_tile_some_intro net tile link href dateTxt d m yy pub
        hl hh hne hd hdf hmk hlt⟩

/-- Claim C7 witness: the iff direction produces a record for the tile
dated 1. 5. 2025, and the page-level part certifies the date of a record
of the scenario page. -/
theorem c7_witness :
    (∃ r, parse_tile netNone tileA = .ok (some r)) ∧
    (∃ dt, fromIso recA.date = some dt ∧ dtLt dt CUTOFF = false) :=
  ⟨(c7_cutoff_iff.2 netNone tileA { href := some "/a", text := "A" } "/a"
      "1. 5. 2025" 1 5 2025 ⟨2025, 5, 1⟩ rfl rfl (by decide) rfl (by decide)
      (by decide)).mpr (by decide),
   c7_cutoff_iff.1 netNone ftScenario (pathFor 1) [recA, recB] recA
     (by decide) (by decide)⟩

/-- Claim C8: the Summary Resolver is total and defaults to the empty
string: a failed fetch yields the empty string, and so does a fetched
page with no non-empty paragraph and no description meta tags. -/
theorem c8_summary_defaults (net : Net) (url : String) :
    (net url = none → summary_from_page net url = "") ∧
    (∀ page, net url = some page → (∀ t ∈ page.paragraphs, t = "") →
      page.ogDesc = none → page.nameDesc = none →
      summary_from_page net url = "") := by
  constructor
  · intro h
    unfold summary_from_page
    rw [h]
  · intro page hp hpar hog hname
    unfold summary_from_page
    have hf : page.paragraphs.find? (fun t => t ≠ "") = none := by
      rw [List.find?_eq_none]
      intro x hx
      simp [hpar x hx]
    simp only [hp, hf, hog, hname]

/-- Claim C8 witness: the defaults evaluated at a failing network and at
a page with only empty paragraphs. -/
theorem c8_witness :
    summary_from_page netNone "https://www.vema.sk/a" = "" ∧
    summary_from_page netEmptyPage "u" = "" :=
  ⟨(c8_summary_defaults netNone "https://www.vema.sk/a").1 rfl,
   (c8_summary_defaults netEmptyPage "u").2
     { paragraphs := ["", ""], ogDesc := none, nameDesc := none }
     rfl (by decide) rfl rfl⟩

/-- Claim C9: every produced record carries an image field (a field of
the record structure, hence always present); it is empty exactly when
the tile has no media element, no style attribute, or no CSS url token,
and otherwise it is the token prefixed with the base origin, hence a
non-empty locator starting with http. -/
theorem c9_image_always_present (net : Net) (tile : Tile) (r : Record)
    (h : parse_tile net tile = .ok (some r)) :
    r.image = tileImage tile ∧
    ((tile.media = none ∨ (∃ bg, tile.media = some bg ∧ bg.style = none) ∨
      (∃ bg sty, tile.media = some bg ∧ bg.style = some sty ∧
        searchCssUrl sty.toList = none)) → r.image = "") ∧
    (∀ bg sty tok, tile.media = some bg → bg.style = some sty →
      searchCssUrl sty.toList = some tok →
      r.image = BASE_URL ++ String.mk tok ∧ startsHttp r.image = true ∧
      r.image ≠ "") := by
  obtain ⟨link, href, dateTxt, d, m, yy, pub, _, _, _, _, _, _, _, hr⟩ :=
    parse_tile_some_elim net tile r h
  subst hr
  refine ⟨rfl, ?_, ?_⟩
  · rintro (hm | ⟨bg, hbg, hsty⟩ | ⟨bg, sty, hbg, hsty, htok⟩)
    · show tileImage tile = ""
      unfold tileImage
      rw [hm]
    · show tileImage tile = ""
      unfold tileImage
      simp [hbg, hsty]
    · show tileImage tile = ""
      unfold tileImage
      simp only [String.toList] at htok
      simp [hbg, hsty, htok]
  · intro bg sty tok hbg hsty htok
    have e : tileImage tile = BASE_URL ++ String.mk tok := by
      unfold tileImage
      simp only [String.toList] at htok
      simp [hbg, hsty, htok]
    refine ⟨e, ?_, ?_⟩
    · show startsHttp (tileImage tile) = true
      rw [e]
      exact base_append_startsHttp _
    · show tileImage tile ≠ ""
      rw [e]
      exact base_append_ne_empty _

/-- Claim C9 witness: a tile with a url token yields a non-empty http
image, and the scenario tile without a media element yields the empty
image field. -/
theorem c9_witness :
    (recImg.image = tileImage tileImg ∧ recImg.image ≠ "" ∧
      startsHttp recImg.image = true) ∧ recA.image = "" := by
  constructor
  · obtain ⟨e1, _, e3⟩ := c9_image_always_present netNone tileImg recImg (by decide)
    obtain ⟨_, hs, hne⟩ := e3
      { style := some "background-image: url(/media/pic.jpg);" }
      "background-image: url(/media/pic.jpg);" "/media/pic.jpg".toList
      rfl rfl (by decide)
    exact ⟨e1, hne, hs⟩
  · exact (c9_image_always_present netNone tileA recA (by decide)).2.1 (Or.inl rfl)

/-- Claim C10: the Pagination Walker has no page-count ceiling.  When
every page yields at least one surviving record the loop runs forever
(no fuel suffices); and it terminates exactly at the first page whose
surviving record list is empty — the other claimed stop condition, a
surviving minimum date before the cutoff, cannot occur since surviving
records always pass the cutoff (the first conjunct of c7 in spirit), so
the walk past nonempty pages never stops early. -/
theorem c10_no_page_ceiling :
    (∀ (net : Net) (ft : TileSource),
      (∀ p, 1 ≤ p → ∃ items, scrape_page net ft (pathFor p) = .ok items ∧ items ≠ []) →
      ∀ fuel, scrape_all net ft fuel = none) ∧
    (∀ (net : Net) (ft : TileSource) (k : Nat), 1 ≤ k →
      (∀ p, 1 ≤ p → p < k →
        ∃ items, scrape_page net ft (pathFor p) = .ok items ∧ items ≠ []) →
      scrape_page net ft (pathFor k) = .ok [] →
      ∃ res, scrape_all net ft k = some (.ok res)) := by
  constructor
  · intro net ft H fuel
    exact scrapeAllLoop_none net ft H fuel 1 [] (by omega)
  · intro net ft k hk H1 H2
    have e : k - 1 + 1 = k := by omega
    obtain ⟨res, hres⟩ := scrapeAllLoop_term net ft k H1 H2 (k - 1) 1 [] (by omega) (by omega)
    rw [e] at hres
    exact ⟨res, hres⟩

/-- Claim C10 witness: under the listing whose every page has a surviving
tile the walker is still running after seven fetches, and under a listing
whose page 2 is empty it returns after two. -/
theorem c10_witness :
    scrape_all netNone ftEndless 7 = none ∧
    ∃ res, scrape_all netNone ftTwoPages 2 = some (.ok res) := by
  constructor
  · refine c10_no_page_ceiling.1 netNone ftEndless ?_ 7
    intro p hp
    exact ⟨[recA], rfl, by decide⟩
  · refine c10_no_page_ceiling.2 netNone ftTwoPages 2 (by omega) ?_ ?_
    · intro p hp hlt
      have hp1 : p = 1 := by omega
      subst hp1
      exact ⟨[recA], by decide, by decide⟩
    · decide

end Vemabot
